import Mathlib

/-!
# A verified model of the Etherpad client (`src/etherpad.py`)

This file gives a shallow embedding of the single-class Etherpad client and
proves/refutes the specification claims about it.

Modelling conventions:
* Python's dynamically typed values are `PyVal`; operations that can raise
  return `Except PyExc _`.
* The HTTP layer is an oracle `Api : String → params → HttpResp`; the
  BeautifulSoup string parser is an oracle `String → List Html` (the list of
  top-level nodes of the parsed document).  Everything the source does *with*
  the response body and the parsed tree is modelled concretely.
* `bs4` tree operations (`find_all`, `.string`, serialization,
  `replace_with`) are modelled on the `Html` tree per their documented
  semantics.
* Machine-level details that no claim touches (JSON decoding of the raw
  bytes, the dead `__position` helper, the constructor's argument checks)
  are not modelled.
-/

/-- An HTML node as produced by BeautifulSoup's `html.parser` backend:
either a `NavigableString` or a `Tag` with a name, attributes and children. -/
inductive Html where
  | text (s : String)
  | tag (nm : String) (attrs : List (String × String)) (children : List Html)

/-- A Python runtime value, covering exactly the shapes the client handles:
`None`, booleans, ints, strings, lists, dicts, and BeautifulSoup documents
(a parsed document is its list of top-level nodes). -/
inductive PyVal where
  | pynone
  | bool (b : Bool)
  | int (n : Int)
  | str (s : String)
  | list (xs : List PyVal)
  | dict (entries : List (PyVal × PyVal))
  | soup (doc : List Html)

/-- The Python exceptions reachable in the client. -/
inductive PyExc where
  | valueError (msg : String)
  | typeError (msg : String)
  | keyError (msg : String)
  | indexError (msg : String)
  | attributeError (msg : String)
  deriving DecidableEq, Repr

mutual
def deqH : (a b : Html) → Decidable (a = b)
  | .text s, .text t =>
    match decEq s t with
    | isTrue h => isTrue (by rw [h])
    | isFalse h => isFalse (fun hh => h (by injection hh))
  | .text _, .tag _ _ _ => isFalse (fun hh => by injection hh)
  | .tag _ _ _, .text _ => isFalse (fun hh => by injection hh)
  | .tag n1 a1 c1, .tag n2 a2 c2 =>
    if h1 : n1 = n2 then
      if h2 : a1 = a2 then
        match deqHL c1 c2 with
        | isTrue h3 => isTrue (by rw [h1, h2, h3])
        | isFalse h3 => isFalse (fun hh => by injection hh; exact h3 (by assumption))
      else isFalse (fun hh => by injection hh; exact h2 (by assumption))
    else isFalse (fun hh => by injection hh; exact h1 (by assumption))
def deqHL : (a b : List Html) → Decidable (a = b)
  | [], [] => isTrue rfl
  | [], _ :: _ => isFalse (fun hh => by injection hh)
  | _ :: _, [] => isFalse (fun hh => by injection hh)
  | x :: xs, y :: ys =>
    match deqH x y, deqHL xs ys with
    | isTrue h1, isTrue h2 => isTrue (by rw [h1, h2])
    | isFalse h1, _ => isFalse (fun hh => by injection hh; exact h1 (by assumption))
    | _, isFalse h2 => isFalse (fun hh => by injection hh; exact h2 (by assumption))
end

instance : DecidableEq Html := deqH

mutual
def deqP : (a b : PyVal) → Decidable (a = b)
  | .pynone, .pynone => isTrue rfl
  | .bool a, .bool b =>
    match decEq a b with
    | isTrue h => isTrue (by rw [h])
    | isFalse h => isFalse (fun hh => h (by injection hh))
  | .int a, .int b =>
    match decEq a b with
    | isTrue h => isTrue (by rw [h])
    | isFalse h => isFalse (fun hh => h (by injection hh))
  | .str a, .str b =>
    match decEq a b with
    | isTrue h => isTrue (by rw [h])
    | isFalse h => isFalse (fun hh => h (by injection hh))
  | .list a, .list b =>
    match deqPL a b with
    | isTrue h => isTrue (by rw [h])
    | isFalse h => isFalse (fun hh => h (by injection hh))
  | .dict a, .dict b =>
    match deqPKV a b with
    | isTrue h => isTrue (by rw [h])
    | isFalse h => isFalse (fun hh => h (by injection hh))
  | .soup a, .soup b =>
    match deqHL a b with
    | isTrue h => isTrue (by rw [h])
    | isFalse h => isFalse (fun hh => h (by injection hh))
  | .pynone, .bool _ => isFalse (fun hh => by injection hh)
  | .pynone, .int _ => isFalse (fun hh => by injection hh)
  | .pynone, .str _ => isFalse (fun hh => by injection hh)
  | .pynone, .list _ => isFalse (fun hh => by injection hh)
  | .pynone, .dict _ => isFalse (fun hh => by injection hh)
  | .pynone, .soup _ => isFalse (fun hh => by injection hh)
  | .bool _, .pynone => isFalse (fun hh => by injection hh)
  | .bool _, .int _ => isFalse (fun hh => by injection hh)
  | .bool _, .str _ => isFalse (fun hh => by injection hh)
  | .bool _, .list _ => isFalse (fun hh => by injection hh)
  | .bool _, .dict _ => isFalse (fun hh => by injection hh)
  | .bool _, .soup _ => isFalse (fun hh => by injection hh)
  | .int _, .pynone => isFalse (fun hh => by injection hh)
  | .int _, .bool _ => isFalse (fun hh => by injection hh)
  | .int _, .str _ => isFalse (fun hh => by injection hh)
  | .int _, .list _ => isFalse (fun hh => by injection hh)
  | .int _, .dict _ => isFalse (fun hh => by injection hh)
  | .int _, .soup _ => isFalse (fun hh => by injection hh)
  | .str _, .pynone => isFalse (fun hh => by injection hh)
  | .str _, .bool _ => isFalse (fun hh => by injection hh)
  | .str _, .int _ => isFalse (fun hh => by injection hh)
  | .str _, .list _ => isFalse (fun hh => by injection hh)
  | .str _, .dict _ => isFalse (fun hh => by injection hh)
  | .str _, .soup _ => isFalse (fun hh => by injection hh)
  | .list _, .pynone => isFalse (fun hh => by injection hh)
  | .list _, .bool _ => isFalse (fun hh => by injection hh)
  | .list _, .int _ => isFalse (fun hh => by injection hh)
  | .list _, .str _ => isFalse (fun hh => by injection hh)
  | .list _, .dict _ => isFalse (fun hh => by injection hh)
  | .list _, .soup _ => isFalse (fun hh => by injection hh)
  | .dict _, .pynone => isFalse (fun hh => by injection hh)
  | .dict _, .bool _ => isFalse (fun hh => by injection hh)
  | .dict _, .int _ => isFalse (fun hh => by injection hh)
  | .dict _, .str _ => isFalse (fun hh => by injection hh)
  | .dict _, .list _ => isFalse (fun hh => by injection hh)
  | .dict _, .soup _ => isFalse (fun hh => by injection hh)
  | .soup _, .pynone => isFalse (fun hh => by injection hh)
  | .soup _, .bool _ => isFalse (fun hh => by injection hh)
  | .soup _, .int _ => isFalse (fun hh => by injection hh)
  | .soup _, .str _ => isFalse (fun hh => by injection hh)
  | .soup _, .list _ => isFalse (fun hh => by injection hh)
  | .soup _, .dict _ => isFalse (fun hh => by injection hh)
def deqPL : (a b : List PyVal) → Decidable (a = b)
  | [], [] => isTrue rfl
  | [], _ :: _ => isFalse (fun hh => by injection hh)
  | _ :: _, [] => isFalse (fun hh => by injection hh)
  | x :: xs, y :: ys =>
    match deqP x y, deqPL xs ys with
    | isTrue h1, isTrue h2 => isTrue (by rw [h1, h2])
    | isFalse h1, _ => isFalse (fun hh => by injection hh; exact h1 (by assumption))
    | _, isFalse h2 => isFalse (fun hh => by injection hh; exact h2 (by assumption))
def deqPKV : (a b : List (PyVal × PyVal)) → Decidable (a = b)
  | [], [] => isTrue rfl
  | [], _ :: _ => isFalse (fun hh => by injection hh)
  | _ :: _, [] => isFalse (fun hh => by injection hh)
  | (k1, v1) :: xs, (k2, v2) :: ys =>
    match deqP k1 k2, deqP v1 v2, deqPKV xs ys with
    | isTrue h1, isTrue h2, isTrue h3 => isTrue (by rw [h1, h2, h3])
    | isFalse h1, _, _ =>
      isFalse (fun hh => by injection hh with hp ht; exact h1 (congrArg Prod.fst hp))
    | _, isFalse h2, _ =>
      isFalse (fun hh => by injection hh with hp ht; exact h2 (congrArg Prod.snd hp))
    | _, _, isFalse h3 => isFalse (fun hh => by injection hh with hp ht; exact h3 ht)
end

instance : DecidableEq PyVal := deqP

instance {ε α : Type} [DecidableEq ε] [DecidableEq α] : DecidableEq (Except ε α) := fun a b =>
  match a, b with
  | .error x, .error y =>
    match decEq x y with
    | isTrue h => isTrue (by rw [h])
    | isFalse h => isFalse (fun hh => h (by injection hh))
  | .ok x, .ok y =>
    match decEq x y with
    | isTrue h => isTrue (by rw [h])
    | isFalse h => isFalse (fun hh => h (by injection hh))
  | .error _, .ok _ => isFalse (fun hh => by injection hh)
  | .ok _, .error _ => isFalse (fun hh => by injection hh)

/-! ## String helpers (modelled on CPython semantics, kernel-computable) -/

/-- Python `str.replace` on character lists: all occurrences, left to right,
non-overlapping.  `fuel` is the haystack length, making the recursion
structural.  Every pattern the source passes to `replace`/`re.sub` is
nonempty, so CPython's empty-pattern behaviour never arises and the
`pat ≠ []` guard is inert on reachable inputs. -/
def replaceGo (pat rep : List Char) : Nat → List Char → List Char
  | _, [] => []
  | 0, l => l
  | n + 1, c :: cs =>
    if pat ≠ [] ∧ pat.isPrefixOf (c :: cs) then
      rep ++ replaceGo pat rep n ((c :: cs).drop pat.length)
    else
      c :: replaceGo pat rep n cs

/-- Python `s.replace(pat, rep)` (also `re.sub` for the metacharacter-free
patterns the source uses). -/
def pyReplace (s pat rep : String) : String :=
  (replaceGo pat.toList rep.toList s.toList.length s.toList).asString

/-- Python `pat in s` on character lists. -/
def occursIn (pat : List Char) : List Char → Bool
  | [] => pat.isEmpty
  | c :: cs => pat.isPrefixOf (c :: cs) || occursIn pat cs

/-- Python slicing `s[2:]` (by code points, like `str.__getitem__`). -/
def pyDropTwo (s : String) : String := (s.toList.drop 2).asString

/-- Split a character list at `'.'` separators, like `str.split(".")`
restricted to what version parsing needs. -/
def splitDot : List Char → List (List Char)
  | [] => [[]]
  | c :: cs =>
    if c = '.' then [] :: splitDot cs
    else
      match splitDot cs with
      | [] => [[c]]
      | t :: ts => (c :: t) :: ts

/-- Numeric value of an all-digit character list; `none` if empty or not
all digits (the acceptance condition of `int()` on a `\d+` match). -/
def natOfDigits (l : List Char) : Option Nat :=
  if l ≠ [] ∧ l.all Char.isDigit then
    some (l.foldl (fun a c => a * 10 + (c.toNat - 48)) 0)
  else none

/-- Whitespace tokenization of an attribute value (bs4 splits `class` on
whitespace; after the client's preprocessing only plain spaces remain).
`fuel` is the list length. -/
def splitWSGo : Nat → List Char → List (List Char)
  | 0, _ => []
  | _ + 1, [] => []
  | n + 1, c :: cs =>
    if c = ' ' then splitWSGo n cs
    else
      ((c :: cs).takeWhile (fun d => d ≠ ' ')) ::
        splitWSGo n ((c :: cs).dropWhile (fun d => d ≠ ' '))

/-! ## BeautifulSoup tree operations -/

def childrenOf : Html → List Html
  | .text _ => []
  | .tag _ _ cs => cs

mutual
/-- All nodes of a node list in document order (each node followed by its
descendants) — the traversal order of `find_all`. -/
def descL : List Html → List Html
  | [] => []
  | c :: cs => desc1 c ++ descL cs
def desc1 : Html → List Html
  | .text s => [.text s]
  | .tag n a cs => .tag n a cs :: descL cs
end

def isSpanTag : Html → Bool
  | .tag nm _ _ => nm == "span"
  | _ => false

/-- The value of the `class` attribute, if present (first binding wins,
as in the parsed attribute dict). -/
def classAttr : Html → Option String
  | .text _ => none
  | .tag _ attrs _ => (attrs.find? (fun kv => kv.1 == "class")).map (fun kv => kv.2)

/-- The whitespace-separated tokens of the `class` attribute (bs4 stores
`class` as a multi-valued attribute). -/
def classTokens (e : Html) : List String :=
  match classAttr e with
  | none => []
  | some v => (splitWSGo v.toList.length v.toList).map List.asString

/-- bs4 `find_all("span", class_=cls)` element test: a `span` whose class
token list contains `cls`, or (bs4 also accepts this) whose entire `class`
attribute string equals `cls`. -/
def matchesSpanClass (cls : String) (e : Html) : Bool :=
  match e with
  | .text _ => false
  | .tag nm _ _ =>
    nm == "span" && ((classTokens e).contains cls || classAttr e == some cls)

/-- bs4 `find_all` over a parsed document: every matching element of the
document, in document order. -/
def findAll (doc : List Html) (p : Html → Bool) : List Html :=
  (descL doc).filter p

/-- bs4 `Tag.string`: the unique string child, following a chain of single
children; `None` when a tag has zero or several children. -/
def bsString : Html → Option String
  | .text s => some s
  | .tag _ _ [c] => bsString c
  | .tag _ _ _ => none

/-- Python `str(x)` where `x` is `Tag.string`: a `NavigableString` prints
itself, `None` prints as `"None"`. -/
def strOfBsString : Option String → String
  | .none => "None"
  | .some s => s

mutual
/-- `element.replace_with('')` applied to every `<style>` element: the style
element becomes an empty string node, everything else is rebuilt unchanged. -/
def removeStyles1 : Html → Html
  | .text s => .text s
  | .tag nm attrs cs =>
    if nm == "style" then .text "" else .tag nm attrs (removeStylesL cs)
def removeStylesL : List Html → List Html
  | [] => []
  | c :: cs => removeStyles1 c :: removeStylesL cs
end

mutual
/-- Serialization of a node (`str()` on a bs4 element, entity escaping and
void tags elided — no claim concerns either). -/
def serialize1 : Html → String
  | .text s => s
  | .tag nm attrs cs =>
    "<" ++ nm ++ serializeAttrs attrs ++ ">" ++ serializeL cs ++ "</" ++ nm ++ ">"
def serializeL : List Html → String
  | [] => ""
  | c :: cs => serialize1 c ++ serializeL cs
def serializeAttrs : List (String × String) → String
  | [] => ""
  | (k, v) :: rest => " " ++ k ++ "=\"" ++ v ++ "\"" ++ serializeAttrs rest
end

mutual
/-- All contiguous text runs below a node, concatenated (used by the
spec-modelled contribution classifier). -/
def innerText1 : Html → String
  | .text s => s
  | .tag _ _ cs => innerTextL cs
def innerTextL : List Html → String
  | [] => ""
  | c :: cs => innerText1 c ++ innerTextL cs
end

/-! ## `distutils.version.StrictVersion` -/

/-- A parsed strict version: `(major, minor, patch)` plus an optional
prerelease tag `('a' | 'b', number)`. -/
structure SVersion where
  nums : Nat × Nat × Nat
  pre : Option (Char × Nat)
  deriving DecidableEq, Repr

/-- Parse the optional prerelease suffix `([ab]\d+)?`. -/
def parsePre (l : List Char) : Option (Option (Char × Nat)) :=
  match l with
  | [] => some .none
  | c :: rest =>
    if c = 'a' ∨ c = 'b' then
      match natOfDigits rest with
      | some n => some (some (c, n))
      | none => none
    else none

/-- Parse one numeric component possibly followed by a prerelease tag. -/
def parseNumPre (l : List Char) : Option (Nat × Option (Char × Nat)) :=
  match natOfDigits (l.takeWhile Char.isDigit) with
  | none => none
  | some n =>
    match parsePre (l.dropWhile Char.isDigit) with
    | none => none
    | some p => some (n, p)

/-- `StrictVersion` parsing: `^(\d+)\.(\d+)(\.(\d+))?([ab](\d+))?$`;
`none` models the `ValueError` raised on anything else. -/
def parseStrict (s : String) : Option SVersion :=
  match splitDot s.toList with
  | [a, b] =>
    match natOfDigits a, parseNumPre b with
    | some ma, some (mb, p) => some ⟨(ma, mb, 0), p⟩
    | _, _ => none
  | [a, b, c] =>
    match natOfDigits a, natOfDigits b, parseNumPre c with
    | some ma, some mb, some (mc, p) => some ⟨(ma, mb, mc), p⟩
    | _, _, _ => none
  | _ => none

def tripleLt : Nat × Nat × Nat → Nat × Nat × Nat → Bool
  | (a, b, c), (x, y, z) =>
    decide (a < x) ||
      (decide (a = x) && (decide (b < y) || (decide (b = y) && decide (c < z))))

/-- Prerelease comparison: a prerelease sorts before the corresponding
release; prereleases compare by letter then number. -/
def preLt : Option (Char × Nat) → Option (Char × Nat) → Bool
  | .none, _ => false
  | .some _, .none => true
  | .some (c, n), .some (d, m) =>
    decide (c < d) || (decide (c = d) && decide (n < m))

/-- `StrictVersion.__lt__`. -/
def versionLt (v w : SVersion) : Bool :=
  tripleLt v.nums w.nums || (decide (v.nums = w.nums) && preLt v.pre w.pre)


/-! ## Python value operations -/

def pyTypeName : PyVal → String
  | .pynone => "NoneType"
  | .bool _ => "bool"
  | .int _ => "int"
  | .str _ => "str"
  | .list _ => "list"
  | .dict _ => "dict"
  | .soup _ => "BeautifulSoup"

/-- Python `+` on the value shapes the client can reach.  Line 342 of the
source concatenates a `str` with the integer `resp.status_code`, which is
the `TypeError` case. -/
def pyAdd : PyVal → PyVal → Except PyExc PyVal
  | .str a, .str b => .ok (.str (a ++ b))
  | .int a, .int b => .ok (.int (a + b))
  | .list a, .list b => .ok (.list (a ++ b))
  | .str _, v =>
    .error (.typeError ("can only concatenate str (not \"" ++ pyTypeName v ++ "\") to str"))
  | v, _ => .error (.typeError ("unsupported operand type(s) for +: " ++ pyTypeName v))

mutual
/-- Python `repr`, needed only for the `str()` of containers (unreachable
from the modelled call sites, which only stringify soups and `False`). -/
def pyRepr : PyVal → String
  | .pynone => "None"
  | .bool true => "True"
  | .bool false => "False"
  | .int n => toString n
  | .str s => "\x27" ++ s ++ "\x27"
  | .list xs => "[" ++ pyReprJoin xs ++ "]"
  | .dict es => "\x7b" ++ pyReprJoinKV es ++ "\x7d"
  | .soup doc => serializeL doc
def pyReprJoin : List PyVal → String
  | [] => ""
  | [x] => pyRepr x
  | x :: xs => pyRepr x ++ ", " ++ pyReprJoin xs
def pyReprJoinKV : List (PyVal × PyVal) → String
  | [] => ""
  | [(k, v)] => pyRepr k ++ ": " ++ pyRepr v
  | (k, v) :: xs => pyRepr k ++ ": " ++ pyRepr v ++ ", " ++ pyReprJoinKV xs
end

/-- Python `str(x)`.  `str()` of a soup is its serialized document. -/
def pyStr : PyVal → String
  | .pynone => "None"
  | .bool true => "True"
  | .bool false => "False"
  | .int n => toString n
  | .str s => s
  | .soup doc => serializeL doc
  | .list xs => "[" ++ pyReprJoin xs ++ "]"
  | .dict es => "\x7b" ++ pyReprJoinKV es ++ "\x7d"

/-- Python subscript `v[k]`.  The source only subscripts dicts with string
keys; the remaining cases model the exceptions Python would raise. -/
def pyGet (v k : PyVal) : Except PyExc PyVal :=
  match v with
  | .dict es =>
    match es.find? (fun kv => kv.1 == k) with
    | some kv => .ok kv.2
    | none => .error (.keyError (pyStr k))
  | .list xs =>
    match k with
    | .int i =>
      if h : 0 ≤ i ∧ i.toNat < xs.length then .ok (xs.get ⟨i.toNat, h.2⟩)
      else .error (.indexError "list index out of range")
    | _ => .error (.typeError "list indices must be integers or slices")
  | _ => .error (.typeError ("\x27" ++ pyTypeName v ++ "\x27 object is not subscriptable"))

/-- Python `len(v)`. -/
def pyLen (v : PyVal) : Except PyExc Nat :=
  match v with
  | .str s => .ok s.length
  | .list xs => .ok xs.length
  | .dict es => .ok es.length
  | .soup doc => .ok doc.length
  | _ => .error (.typeError ("object of type \x27" ++ pyTypeName v ++ "\x27 has no len()"))

/-- Python iteration `for x in v`. -/
def pyIter (v : PyVal) : Except PyExc (List PyVal) :=
  match v with
  | .list xs => .ok xs
  | .str s => .ok (s.toList.map (fun c => PyVal.str (String.mk [c])))
  | .dict es => .ok (es.map (fun kv => kv.1))
  | _ => .error (.typeError ("\x27" ++ pyTypeName v ++ "\x27 object is not iterable"))

/-- Python dict assignment `d[k] = v`: overwrite in place, else append. -/
def pyDictSet (es : List (PyVal × PyVal)) (k v : PyVal) : List (PyVal × PyVal) :=
  match es with
  | [] => [(k, v)]
  | kv :: rest => if kv.1 = k then (k, v) :: rest else kv :: pyDictSet rest k v

/-- The source's `data['code'] is not 0`.  For ints decoded from JSON,
CPython's small-int interning makes the identity test behave as value
inequality; any non-int is `is not 0`. -/
def pyIsNot0 : PyVal → Bool
  | .int n => n != 0
  | _ => true

/-- `'pre' + mid + 'suf'`, as Python evaluates it left to right (the error
messages concatenate the pad/author argument, which need not be a string). -/
def pyConcat3 (pre : String) (mid : PyVal) (suf : String) : Except PyExc PyVal :=
  match pyAdd (.str pre) mid with
  | .error e => .error e
  | .ok m => pyAdd m (.str suf)

/-! ## The client -/

/-- One HTTP exchange: `requests.get` returns a status code and (for the
claims' scope) a JSON-decoded body. -/
structure HttpResp where
  status : Int
  body : PyVal

/-- The HTTP oracle: what the Etherpad server answers for a method name and
a parameter list (in the order `requests` receives them). -/
abbrev Api : Type := String → List (String × PyVal) → HttpResp

/-- The BeautifulSoup parsing oracle: top-level nodes of the parsed
document for a given markup string. -/
abbrev BsParse : Type := String → List Html

/-- One record of the in-process error log: `(timestamp, line, message,
kind)` as appended by `__error`. -/
abbrev LogEntry : Type := String × Nat × String × Option String

/-- The client instance state: configuration plus the error log.  `now` is
the timestamp the next log entry will carry. -/
structure EtherState where
  base : String
  apikey : String
  version : String
  ignore : Bool
  now : String
  log : List LogEntry

/-- The observable outcome of one public operation: final state, the HTTP
requests it issued (in order), and its Python result or the exception it
raised. -/
structure OpOut where
  st : EtherState
  reqs : List (String × List (String × PyVal))
  out : Except PyExc PyVal

/-- `__error` (line 356): append `(timestamp, line, message, type)` to the
log; with `ignore=False` additionally raise `ValueError(message)`. -/
def errlog (st : EtherState) (line : Nat) (msg : String) (etype : Option String) :
    EtherState × Except PyExc Unit :=
  let st1 := { st with log := st.log ++ [(st.now, line, msg, etype)] }
  if st1.ignore then (st1, .ok ()) else (st1, .error (.valueError msg))

/-- The version-gate failure message (all four gates use the same text). -/
def verErrMsg (v : String) : String :=
  "Etherpad API version 1.2.7 or later is required, you have: " ++ v ++ "."

/-- `_request` after the HTTP exchange (line 341): a non-200 status enters
the error branch, whose message concatenates a `str` with the int
`resp.status_code` — raising `TypeError` before `__error` runs. -/
def requestFinish (st : EtherState) (resp : HttpResp) : EtherState × Except PyExc PyVal :=
  if resp.status ≠ 200 then
    match pyAdd
        (.str "An unexpected error occurred while connecting to Etherpad API (Status code: \"")
        (.int resp.status) with
    | .error e => (st, .error e)
    | .ok m1 =>
      match pyAdd m1 (.str "\").") with
      | .error e => (st, .error e)
      | .ok m2 =>
        let p := errlog st 342 (pyStr m2) .none
        (p.1, p.2.map (fun _ => PyVal.bool false))
  else
    (st, .ok resp.body)

/-- `_request` (line 319): merge the API key into the params, issue the GET,
then `requestFinish`. -/
def request (st : EtherState) (api : Api) (method : String)
    (params : List (String × PyVal)) : OpOut :=
  let ps := params ++ [("apikey", PyVal.str st.apikey)]
  let fin := requestFinish st (api method ps)
  ⟨fin.1, [(method, ps)], fin.2⟩

/-- `unique_authors` after `_request` (lines 91–95). -/
def uaFinish (st : EtherState) (pad : PyVal) (d : Except PyExc PyVal) :
    EtherState × Except PyExc PyVal :=
  match d with
  | .error e => (st, .error e)
  | .ok data =>
    match pyGet data (.str "code") with
    | .error e => (st, .error e)
    | .ok code =>
      if pyIsNot0 code then
        match pyConcat3 "PadId \"" pad "\" does not exist." with
        | .error e => (st, .error e)
        | .ok m =>
          let p := errlog st 92 (pyStr m) .none
          (p.1, p.2.map (fun _ => PyVal.list []))
      else
        match pyGet data (.str "data") with
        | .error e => (st, .error e)
        | .ok dd => (st, pyGet dd (.str "authorIDs"))

/-- `unique_authors` (line 65): gate on 1.0.0, call `listAuthorsOfPad`,
return `[]` on an API error, else `data['data']['authorIDs']`. -/
def unique_authors (st : EtherState) (api : Api) (pad : PyVal) : OpOut :=
  match parseStrict st.version with
  | .none => ⟨st, [], .error (.valueError ("invalid version number " ++ st.version))⟩
  | .some sv =>
    if versionLt sv ⟨(1, 0, 0), .none⟩ then
      let p := errlog st 81 (verErrMsg st.version) .none
      ⟨p.1, [], p.2.map (fun _ => PyVal.bool false)⟩
    else
      let rq := request st api "listAuthorsOfPad" [("padID", pad)]
      let fin := uaFinish rq.st pad rq.out
      ⟨fin.1, rq.reqs, fin.2⟩

/-- `author_name` after `_request` (lines 123–127). -/
def anFinish (st : EtherState) (authorId : PyVal) (d : Except PyExc PyVal) :
    EtherState × Except PyExc PyVal :=
  match d with
  | .error e => (st, .error e)
  | .ok data =>
    match pyGet data (.str "code") with
    | .error e => (st, .error e)
    | .ok code =>
      if pyIsNot0 code then
        match pyConcat3 "AuthorId \"" authorId "\" does not exist." with
        | .error e => (st, .error e)
        | .ok m =>
          let p := errlog st 124 (pyStr m) .none
          (p.1, p.2.map (fun _ => PyVal.bool false))
      else
        (st, pyGet data (.str "data"))

/-- `author_name` (line 97): gate on 1.1.0, call `getAuthorName`, return
`False` on an API error, else `data['data']`. -/
def author_name (st : EtherState) (api : Api) (authorId : PyVal) : OpOut :=
  match parseStrict st.version with
  | .none => ⟨st, [], .error (.valueError ("invalid version number " ++ st.version))⟩
  | .some sv =>
    if versionLt sv ⟨(1, 1, 0), .none⟩ then
      let p := errlog st 113 (verErrMsg st.version) .none
      ⟨p.1, [], p.2.map (fun _ => PyVal.bool false)⟩
    else
      let rq := request st api "getAuthorName" [("authorID", authorId)]
      let fin := anFinish rq.st authorId rq.out
      ⟨fin.1, rq.reqs, fin.2⟩

/-- `get_text` after `_request` (lines 155–159). -/
def gtFinish (st : EtherState) (pad : PyVal) (d : Except PyExc PyVal) :
    EtherState × Except PyExc PyVal :=
  match d with
  | .error e => (st, .error e)
  | .ok data =>
    match pyGet data (.str "code") with
    | .error e => (st, .error e)
    | .ok code =>
      if pyIsNot0 code then
        match pyConcat3 "PadId \"" pad "\" does not exist." with
        | .error e => (st, .error e)
        | .ok m =>
          let p := errlog st 156 (pyStr m) .none
          (p.1, p.2.map (fun _ => PyVal.bool false))
      else
        match pyGet data (.str "data") with
        | .error e => (st, .error e)
        | .ok dd => (st, pyGet dd (.str "text"))

/-- `get_text` (line 129): gate on 1.0.0, call `getText`, return `False` on
an API error, else `data['data']['text']`. -/
def get_text (st : EtherState) (api : Api) (pad : PyVal) : OpOut :=
  match parseStrict st.version with
  | .none => ⟨st, [], .error (.valueError ("invalid version number " ++ st.version))⟩
  | .some sv =>
    if versionLt sv ⟨(1, 0, 0), .none⟩ then
      let p := errlog st 145 (verErrMsg st.version) .none
      ⟨p.1, [], p.2.map (fun _ => PyVal.bool false)⟩
    else
      let rq := request st api "getText" [("padID", pad)]
      let fin := gtFinish rq.st pad rq.out
      ⟨fin.1, rq.reqs, fin.2⟩

/-- Preprocessing of the diff HTML (lines 272–276): the first `re.sub`
replaces `"` by `"` — the pattern `'\"'` is the plain quote character, so
the step is the identity — then newlines, tabs and carriage returns are
removed. -/
def preprocessContent (c : String) : String :=
  let c1 := pyReplace c "\"" "\""
  let c2 := pyReplace c1 "\n" ""
  let c3 := pyReplace c2 "\t" ""
  pyReplace c3 "\r" ""

/-- `__unique_contributions` after `_request` (lines 266–285): check the
code, fetch `data['data']['html']`, preprocess, parse, strip styles. -/
def ucFinish (parse : BsParse) (st : EtherState) (pad : PyVal)
    (d : Except PyExc PyVal) : EtherState × Except PyExc PyVal :=
  match d with
  | .error e => (st, .error e)
  | .ok data =>
    match pyGet data (.str "code") with
    | .error e => (st, .error e)
    | .ok code =>
      if pyIsNot0 code then
        match pyConcat3 "PadId \"" pad "\" does not exist." with
        | .error e => (st, .error e)
        | .ok m =>
          let p := errlog st 267 (pyStr m) .none
          (p.1, p.2.map (fun _ => PyVal.bool false))
      else
        match pyGet data (.str "data") with
        | .error e => (st, .error e)
        | .ok dd =>
          match pyGet dd (.str "html") with
          | .error e => (st, .error e)
          | .ok content =>
            match content with
            | .str c =>
              (st, .ok (.soup (removeStylesL (parse (preprocessContent c)))))
            | v => (st, .error (.typeError
                ("expected string or bytes-like object, got " ++ pyTypeName v)))

/-- `__unique_contributions` (line 239): gate on 1.2.7, call
`createDiffHTML` with `startRev = 0`, return `False` on an API error, else
the parsed and style-stripped soup. -/
def uniqueContributions (st : EtherState) (api : Api) (parse : BsParse)
    (pad : PyVal) : OpOut :=
  match parseStrict st.version with
  | .none => ⟨st, [], .error (.valueError ("invalid version number " ++ st.version))⟩
  | .some sv =>
    if versionLt sv ⟨(1, 2, 7), .none⟩ then
      let p := errlog st 255 (verErrMsg st.version) .none
      ⟨p.1, [], p.2.map (fun _ => PyVal.bool false)⟩
    else
      let rq := request st api "createDiffHTML" [("padID", pad), ("startRev", .int 0)]
      let fin := ucFinish parse rq.st pad rq.out
      ⟨fin.1, rq.reqs, fin.2⟩

/-- The replacement loop of `get_html` (lines 175–179): for the `i`-th
author (1-based), plain substring replacement of `'authora_' + author[2:]`
by `'author' + str(i)`. -/
def relabelGo : String → List String → Nat → String
  | s, [], _ => s
  | s, a :: rest, i =>
    relabelGo (pyReplace s ("authora_" ++ pyDropTwo a) ("author" ++ toString i)) rest (i + 1)

/-- `get_html` (line 161): `str()` the soup (or the `False` sentinel), then
run the replacement loop over the author list. -/
def get_html (st : EtherState) (api : Api) (parse : BsParse) (pad : PyVal)
    (authors : List String) : OpOut :=
  let r := uniqueContributions st api parse pad
  match r.out with
  | .error e => ⟨r.st, r.reqs, .error e⟩
  | .ok v => ⟨r.st, r.reqs, .ok (.str (relabelGo (pyStr v) authors 1))⟩

/-- `get_edits` (line 183): find all spans with class
`'author' + author.replace('.', '_')` and append `str(edit.string)` for
each.  When `__unique_contributions` returned its `False` sentinel, the
attribute access `False.find_all` raises `AttributeError`. -/
def get_edits (st : EtherState) (api : Api) (parse : BsParse) (pad : PyVal)
    (author : String) : OpOut :=
  let r := uniqueContributions st api parse pad
  match r.out with
  | .error e => ⟨r.st, r.reqs, .error e⟩
  | .ok (.soup doc) =>
    let cls := "author" ++ pyReplace author "." "_"
    let edits := findAll doc (matchesSpanClass cls)
    ⟨r.st, r.reqs, .ok (.list (edits.map (fun e => PyVal.str (strOfBsString (bsString e)))))⟩
  | .ok v =>
    ⟨r.st, r.reqs, .error (.attributeError
      ("\x27" ++ pyTypeName v ++ "\x27 object has no attribute \x27find_all\x27"))⟩

/-- The entry appended for a retained pad (lines 231–235). -/
def mkEntry (pad ts : PyVal) (m : List (PyVal × PyVal)) : PyVal :=
  .dict [(.str "padId", pad), (.str "timestamp", ts), (.str "authors", .dict m)]

/-- The inner loop of `all_pads_with_authors` (lines 228–229): resolve each
author's display name into `meta_authors`. -/
def authorsLoop (api : Api) :
    EtherState → List (String × List (String × PyVal)) → List (PyVal × PyVal) →
    List PyVal →
    EtherState × List (String × List (String × PyVal)) × Except PyExc (List (PyVal × PyVal))
  | st, reqs, m, [] => (st, reqs, .ok m)
  | st, reqs, m, a :: rest =>
    let rn := author_name st api a
    match rn.out with
    | .error e => (rn.st, reqs ++ rn.reqs, .error e)
    | .ok nm => authorsLoop api rn.st (reqs ++ rn.reqs) (pyDictSet m a nm) rest

/-- The outer loop of `all_pads_with_authors` (lines 216–235): keep pads of
identifier length 13; fetch authors and last-edited time; keep pads with
more than one author; resolve author names and append the entry. -/
def padsLoop (api : Api) :
    EtherState → List (String × List (String × PyVal)) → List PyVal →
    List PyVal →
    EtherState × List (String × List (String × PyVal)) × Except PyExc (List PyVal)
  | st, reqs, acc, [] => (st, reqs, .ok acc)
  | st, reqs, acc, pad :: rest =>
    match pyLen pad with
    | .error e => (st, reqs, .error e)
    | .ok n =>
      if n = 13 then
        let ra := unique_authors st api pad
        match ra.out with
        | .error e => (ra.st, reqs ++ ra.reqs, .error e)
        | .ok authors =>
          let rt := request ra.st api "getLastEdited" [("padID", pad)]
          match rt.out with
          | .error e => (rt.st, reqs ++ ra.reqs ++ rt.reqs, .error e)
          | .ok body =>
            match pyGet body (.str "data") with
            | .error e => (rt.st, reqs ++ ra.reqs ++ rt.reqs, .error e)
            | .ok dd =>
              match pyGet dd (.str "lastEdited") with
              | .error e => (rt.st, reqs ++ ra.reqs ++ rt.reqs, .error e)
              | .ok ts =>
                match pyLen authors with
                | .error e => (rt.st, reqs ++ ra.reqs ++ rt.reqs, .error e)
                | .ok na =>
                  if 1 < na then
                    match pyIter authors with
                    | .error e => (rt.st, reqs ++ ra.reqs ++ rt.reqs, .error e)
                    | .ok alist =>
                      let al := authorsLoop api rt.st (reqs ++ ra.reqs ++ rt.reqs) [] alist
                      match al.2.2 with
                      | .error e => (al.1, al.2.1, .error e)
                      | .ok m => padsLoop api al.1 al.2.1 (acc ++ [mkEntry pad ts m]) rest
                  else
                    padsLoop api rt.st (reqs ++ ra.reqs ++ rt.reqs) acc rest
      else
        padsLoop api st reqs acc rest

/-- `all_pads_with_authors` (line 205): iterate
`listAllPads → data → padIDs` through the filtering loop.  No version gate
is applied by the source here. -/
def all_pads_with_authors (st : EtherState) (api : Api) : OpOut :=
  let rq := request st api "listAllPads" []
  match rq.out with
  | .error e => ⟨rq.st, rq.reqs, .error e⟩
  | .ok body =>
    match pyGet body (.str "data") with
    | .error e => ⟨rq.st, rq.reqs, .error e⟩
    | .ok dd =>
      match pyGet dd (.str "padIDs") with
      | .error e => ⟨rq.st, rq.reqs, .error e⟩
      | .ok pads =>
        match pyIter pads with
        | .error e => ⟨rq.st, rq.reqs, .error e⟩
        | .ok plist =>
          let r := padsLoop api rq.st rq.reqs [] plist
          ⟨r.1, r.2.1, r.2.2.map PyVal.list⟩

/-! ## Spec-side definitions

These render the specification's wording, for comparison against the
behaviour of the embedded source. -/

/-- The spec's dot-to-underscore normalization of an author identifier,
written directly as a character map. -/
def dotU (c : Char) : Char := if c = '.' then '_' else c

def specNormalize (id : String) : String := (id.toList.map dotU).asString

/-- The class token the diff HTML carries for an author identifier, per the
spec's round-trip property for `getEditsByAuthor`: `author` followed by the
identifier with dots translated to underscores (`"a.123"` ↦
`authora_123`, matching the `authora_…` form `get_html` rewrites). -/
def specGenClass (id : String) : String := "author" ++ specNormalize id

/-- A span whose class token list carries the class generated from the
given identifier — the spec's "spans whose class attribute was generated
from that same identifier by the same normalization rule". -/
def spanTaggedGen (id : String) (e : Html) : Bool :=
  isSpanTag e && (classTokens e).contains (specGenClass id)

/-- Component-wise numeric comparison `m ≤ v` on `major.minor.patch`
triples, as the spec states the version gate. -/
def verGe (v m : Nat × Nat × Nat) : Prop :=
  m.1 < v.1 ∨ (m.1 = v.1 ∧ (m.2.1 < v.2.1 ∨ (m.2.1 = v.2.1 ∧ m.2.2 ≤ v.2.2)))

/-- A failed operation outcome: the `False` sentinel or a raised
exception. -/
def failedOut (o : Except PyExc PyVal) : Prop :=
  o = .ok (.bool false) ∨ ∃ e, o = .error e

/-- An error-path outcome with the given benign sentinel: the sentinel is
returned, or the error was raised. -/
def errPathW (sent : PyVal) (o : Except PyExc PyVal) : Prop :=
  o = .ok sent ∨ ∃ e, o = .error e

/-- The two-step field extraction `data[k1][k2]` an operation performs on a
successful response. -/
def dataPath2 (body : PyVal) (k1 k2 : String) : Except PyExc PyVal :=
  match pyGet body (.str k1) with
  | .error e => .error e
  | .ok d => pyGet d (.str k2)

/-- The value `__unique_contributions` computes from a successful response
body with code 0: fetch `data['data']['html']`, preprocess, parse, strip
styles; a non-string html field makes `re.sub` raise `TypeError`. -/
def ucData (parse : BsParse) (body : PyVal) : Except PyExc PyVal :=
  match dataPath2 body "data" "html" with
  | .error e => .error e
  | .ok (.str c) => .ok (.soup (removeStylesL (parse (preprocessContent c))))
  | .ok v => .error (.typeError ("expected string or bytes-like object, got " ++ pyTypeName v))

/-- Modelled from the spec: the class token tagging a span with an author
inside `classifyContributions`, per the spec's worked example
(`"a.123"` tags `class="author_a_123"`): the prefix `author_` followed by
the identifier with dots translated to underscores.  `classifyContributions`
itself is absent from `src/etherpad.py`; only the spec describes it. -/
def specAuthorClass (id : String) : String := "author_" ++ specNormalize id

/-- Modelled from the spec: whether a span is tagged with the given
author's class for `classifyContributions` (exact token match). -/
def specTaggedWith (id : String) (e : Html) : Bool :=
  isSpanTag e && (classTokens e).contains (specAuthorClass id)

/-- Modelled from the spec: classify one tagged span — a span containing a
nested span is a deletion whose text is the nested span's content,
otherwise an insertion whose text is taken directly. -/
def classify1 (e : Html) : Bool × String :=
  match (descL (childrenOf e)).find? isSpanTag with
  | some s => (true, innerText1 s)
  | none => (false, innerText1 e)

/-- Modelled from the spec: `classifyContributions(pad, authors)` — for
each author, walk the spans tagged with that author's class and bucket
their texts into `(insertedByAuthor, deletedByAuthor)`. -/
def classifyContributions (doc : List Html) (authors : List String) :
    List (String × List String) × List (String × List String) :=
  (authors.map (fun a =>
    (a, ((findAll doc (specTaggedWith a)).filter
          (fun e => !(classify1 e).1)).map (fun e => (classify1 e).2))),
   authors.map (fun a =>
    (a, ((findAll doc (specTaggedWith a)).filter
          (fun e => (classify1 e).1)).map (fun e => (classify1 e).2))))

/-- What membership in the result of `all_pads_with_authors` certifies: the
entry was built by `mkEntry` from a pad whose identifier has length 13, the
author value `av` is what `unique_authors` itself returned for that pad
against the same server (at the loop state `st1` when the pad was
processed, so `av` is the API's `listAuthorsOfPad` answer, not a free
value), `av` had more than one element, and the author-name dictionary is
the inner resolution loop's output over `av` — run from the state after
the pad's `getLastEdited` call, as the source does. -/
def goodEntry (api : Api) (e : PyVal) : Prop :=
  ∃ pad ts m av alist na st1 reqs0 st2 reqs1,
    e = mkEntry pad ts m
    ∧ pyLen pad = .ok 13
    ∧ (unique_authors st1 api pad).out = .ok av
    ∧ pyLen av = .ok na ∧ 1 < na
    ∧ pyIter av = .ok alist
    ∧ authorsLoop api
        (request (unique_authors st1 api pad).st api "getLastEdited" [("padID", pad)]).st
        reqs0 [] alist = (st2, reqs1, .ok m)

/-! ## Concrete fixtures (used to instantiate theorems with hypotheses) -/

/-- A client configured with the default version, in collect mode. -/
def stOk : EtherState :=
  ⟨"pad.example.org", "secret", "1.2.12", true, "2019-03-26T12:00:00", []⟩

/-- A client configured below the diff-extraction minimum, in collect
mode. -/
def stLow : EtherState :=
  ⟨"pad.example.org", "secret", "1.0.0", true, "2019-03-26T12:00:00", []⟩

/-- A server answering every call successfully with a fixed diff HTML
payload. -/
def apiDiff : Api := fun _ _ =>
  ⟨200, .dict [(.str "code", .int 0), (.str "data", .dict [(.str "html", .str "<main>")])]⟩

/-- A server reporting a domain error (`code = 1`) on every call. -/
def apiErr : Api := fun _ _ =>
  ⟨200, .dict [(.str "code", .int 1), (.str "message", .str "padID does not exist")]⟩

/-- A server failing every call at the HTTP level. -/
def api500 : Api := fun _ _ => ⟨500, .dict []⟩

/-- A parse oracle for a single-span document. -/
def parseOneSpan : BsParse := fun _ => [Html.tag "span" [("class", "authora_12")] [.text "x"]]

/-- A parse oracle for the spec's nested-span example tagged with the
source's class form (`authora_123` for author `a.123`). -/
def parseNested : BsParse := fun _ =>
  [Html.tag "span" [("class", "authora_123")] [.text "hello", .tag "span" [] [.text "bye"]]]

/-- A parse oracle with one span of the matching class and one of a
different class. -/
def parseTwoSpans : BsParse := fun _ =>
  [Html.tag "span" [("class", "authora_123")] [.text "hi"],
   Html.tag "span" [("class", "other")] [.text "no"]]

/-- The document of the spec's `classifyContributions` example,
`<span class="author_a_123">hello<span>bye</span></span>`. -/
def c4doc : List Html :=
  [Html.tag "span" [("class", "author_a_123")] [.text "hello", .tag "span" [] [.text "bye"]]]

/-- A server for exercising `all_pads_with_authors`: two pads, one of
identifier length 13 with two authors, one of length 1. -/
def apiPads : Api := fun m _ =>
  if m = "listAllPads" then
    ⟨200, .dict [(.str "data", .dict [(.str "padIDs",
      .list [.str "a", .str "gQzTfYpNkWvXs"])])]⟩
  else if m = "listAuthorsOfPad" then
    ⟨200, .dict [(.str "code", .int 0), (.str "data", .dict [(.str "authorIDs",
      .list [.str "a.1", .str "a.2"])])]⟩
  else if m = "getLastEdited" then
    ⟨200, .dict [(.str "data", .dict [(.str "lastEdited", .int 1553598000)])]⟩
  else
    ⟨200, .dict [(.str "code", .int 0), (.str "data", .str "Alice")]⟩

/-- A server whose `listAllPads` and `getLastEdited` responses carry a
nonzero `code` (1) while still holding data; `ts` is the `lastEdited`
payload.  `all_pads_with_authors` never consults `code` on either call,
so this data flows to its caller. -/
def apiTsCode1 (ts : PyVal) : Api := fun m _ =>
  if m = "listAllPads" then
    ⟨200, .dict [(.str "code", .int 1), (.str "data", .dict [(.str "padIDs",
      .list [.str "gQzTfYpNkWvXs"])])]⟩
  else if m = "listAuthorsOfPad" then
    ⟨200, .dict [(.str "code", .int 0), (.str "data", .dict [(.str "authorIDs",
      .list [.str "a.1", .str "a.2"])])]⟩
  else if m = "getLastEdited" then
    ⟨200, .dict [(.str "code", .int 1), (.str "data", .dict [(.str "lastEdited", ts)])]⟩
  else
    ⟨200, .dict [(.str "code", .int 0), (.str "data", .str "Alice")]⟩

/-! ## General lemmas -/

theorem versionLt_none_none (t m : Nat × Nat × Nat) :
    versionLt ⟨t, .none⟩ ⟨m, .none⟩ = tripleLt t m := by
  simp [versionLt, preLt]

theorem tripleLt_false_iff (t m : Nat × Nat × Nat) :
    tripleLt t m = false ↔ verGe t m := by
  obtain ⟨a, b, c⟩ := t
  obtain ⟨x, y, z⟩ := m
  simp [tripleLt, verGe]
  omega

theorem request_reqs (st : EtherState) (api : Api) (method : String)
    (params : List (String × PyVal)) :
    (request st api method params).reqs =
      [(method, params ++ [("apikey", PyVal.str st.apikey)])] := rfl

theorem requestFinish_200 (st : EtherState) (resp : HttpResp)
    (h : resp.status = 200) : requestFinish st resp = (st, .ok resp.body) := by
  simp [requestFinish, h]

theorem unique_authors_gate (st : EtherState) (api : Api) (pad : PyVal)
    (sv : SVersion) (hv : parseStrict st.version = .some sv)
    (hlt : versionLt sv ⟨(1, 0, 0), .none⟩ = true) :
    (unique_authors st api pad).reqs = [] ∧ failedOut (unique_authors st api pad).out := by
  unfold unique_authors
  rw [hv]
  dsimp only
  rw [if_pos hlt]
  refine ⟨rfl, ?_⟩
  unfold failedOut errlog
  dsimp only
  split
  · exact Or.inl rfl
  · exact Or.inr ⟨_, rfl⟩

theorem unique_authors_open (st : EtherState) (api : Api) (pad : PyVal)
    (sv : SVersion) (hv : parseStrict st.version = .some sv)
    (hge : versionLt sv ⟨(1, 0, 0), .none⟩ = false) :
    unique_authors st api pad =
      ⟨(uaFinish (request st api "listAuthorsOfPad" [("padID", pad)]).st pad
          (request st api "listAuthorsOfPad" [("padID", pad)]).out).1,
        (request st api "listAuthorsOfPad" [("padID", pad)]).reqs,
        (uaFinish (request st api "listAuthorsOfPad" [("padID", pad)]).st pad
          (request st api "listAuthorsOfPad" [("padID", pad)]).out).2⟩ := by
  unfold unique_authors
  rw [hv]
  dsimp only
  rw [if_neg (by rw [hge]; simp)]

theorem get_text_gate (st : EtherState) (api : Api) (pad : PyVal)
    (sv : SVersion) (hv : parseStrict st.version = .some sv)
    (hlt : versionLt sv ⟨(1, 0, 0), .none⟩ = true) :
    (get_text st api pad).reqs = [] ∧ failedOut (get_text st api pad).out := by
  unfold get_text
  rw [hv]
  dsimp only
  rw [if_pos hlt]
  refine ⟨rfl, ?_⟩
  unfold failedOut errlog
  dsimp only
  split
  · exact Or.inl rfl
  · exact Or.inr ⟨_, rfl⟩

theorem get_text_open (st : EtherState) (api : Api) (pad : PyVal)
    (sv : SVersion) (hv : parseStrict st.version = .some sv)
    (hge : versionLt sv ⟨(1, 0, 0), .none⟩ = false) :
    get_text st api pad =
      ⟨(gtFinish (request st api "getText" [("padID", pad)]).st pad
          (request st api "getText" [("padID", pad)]).out).1,
        (request st api "getText" [("padID", pad)]).reqs,
        (gtFinish (request st api "getText" [("padID", pad)]).st pad
          (request st api "getText" [("padID", pad)]).out).2⟩ := by
  unfold get_text
  rw [hv]
  dsimp only
  rw [if_neg (by rw [hge]; simp)]

theorem author_name_gate (st : EtherState) (api : Api) (aid : PyVal)
    (sv : SVersion) (hv : parseStrict st.version = .some sv)
    (hlt : versionLt sv ⟨(1, 1, 0), .none⟩ = true) :
    (author_name st api aid).reqs = [] ∧ failedOut (author_name st api aid).out := by
  unfold author_name
  rw [hv]
  dsimp only
  rw [if_pos hlt]
  refine ⟨rfl, ?_⟩
  unfold failedOut errlog
  dsimp only
  split
  · exact Or.inl rfl
  · exact Or.inr ⟨_, rfl⟩

theorem author_name_open (st : EtherState) (api : Api) (aid : PyVal)
    (sv : SVersion) (hv : parseStrict st.version = .some sv)
    (hge : versionLt sv ⟨(1, 1, 0), .none⟩ = false) :
    author_name st api aid =
      ⟨(anFinish (request st api "getAuthorName" [("authorID", aid)]).st aid
          (request st api "getAuthorName" [("authorID", aid)]).out).1,
        (request st api "getAuthorName" [("authorID", aid)]).reqs,
        (anFinish (request st api "getAuthorName" [("authorID", aid)]).st aid
          (request st api "getAuthorName" [("authorID", aid)]).out).2⟩ := by
  unfold author_name
  rw [hv]
  dsimp only
  rw [if_neg (by rw [hge]; simp)]

theorem uniqueContributions_gate (st : EtherState) (api : Api) (parse : BsParse)
    (pad : PyVal) (sv : SVersion) (hv : parseStrict st.version = .some sv)
    (hlt : versionLt sv ⟨(1, 2, 7), .none⟩ = true) :
    (uniqueContributions st api parse pad).reqs = [] ∧
      failedOut (uniqueContributions st api parse pad).out := by
  unfold uniqueContributions
  rw [hv]
  dsimp only
  rw [if_pos hlt]
  refine ⟨rfl, ?_⟩
  unfold failedOut errlog
  dsimp only
  split
  · exact Or.inl rfl
  · exact Or.inr ⟨_, rfl⟩

theorem uniqueContributions_open (st : EtherState) (api : Api) (parse : BsParse)
    (pad : PyVal) (sv : SVersion) (hv : parseStrict st.version = .some sv)
    (hge : versionLt sv ⟨(1, 2, 7), .none⟩ = false) :
    uniqueContributions st api parse pad =
      ⟨(ucFinish parse (request st api "createDiffHTML" [("padID", pad), ("startRev", .int 0)]).st pad
          (request st api "createDiffHTML" [("padID", pad), ("startRev", .int 0)]).out).1,
        (request st api "createDiffHTML" [("padID", pad), ("startRev", .int 0)]).reqs,
        (ucFinish parse (request st api "createDiffHTML" [("padID", pad), ("startRev", .int 0)]).st pad
          (request st api "createDiffHTML" [("padID", pad), ("startRev", .int 0)]).out).2⟩ := by
  unfold uniqueContributions
  rw [hv]
  dsimp only
  rw [if_neg (by rw [hge]; simp)]

/-- C1: each public operation issues its request iff the configured version
is at least the operation's declared minimum, under component-wise numeric
comparison; below the minimum the operation fails with no request issued. -/
theorem c1_version_gate (st : EtherState) (api : Api) (parse : BsParse)
    (pad aid : PyVal) (v3 : Nat × Nat × Nat)
    (hv : parseStrict st.version = .some ⟨v3, .none⟩) :
    ((unique_authors st api pad).reqs ≠ [] ↔ verGe v3 (1, 0, 0))
    ∧ ((get_text st api pad).reqs ≠ [] ↔ verGe v3 (1, 0, 0))
    ∧ ((author_name st api aid).reqs ≠ [] ↔ verGe v3 (1, 1, 0))
    ∧ ((uniqueContributions st api parse pad).reqs ≠ [] ↔ verGe v3 (1, 2, 7))
    ∧ (¬ verGe v3 (1, 0, 0) →
        failedOut (unique_authors st api pad).out ∧ failedOut (get_text st api pad).out)
    ∧ (¬ verGe v3 (1, 1, 0) → failedOut (author_name st api aid).out)
    ∧ (¬ verGe v3 (1, 2, 7) → failedOut (uniqueContributions st api parse pad).out) := by
  have key : ∀ m : Nat × Nat × Nat,
      versionLt ⟨v3, .none⟩ ⟨m, .none⟩ = false ↔ verGe v3 m := by
    intro m
    rw [versionLt_none_none]
    exact tripleLt_false_iff v3 m
  refine ⟨?_, ?_, ?_, ?_, ?_, ?_, ?_⟩
  · by_cases h : versionLt ⟨v3, .none⟩ ⟨(1, 0, 0), .none⟩ = true
    · rw [(unique_authors_gate st api pad _ hv h).1]
      simp only [ne_eq, not_true_eq_false, false_iff]
      intro hge
      rw [(key _).mpr hge] at h
      exact Bool.false_ne_true h
    · have hf : versionLt ⟨v3, .none⟩ ⟨(1, 0, 0), .none⟩ = false := by
        simpa using h
      rw [unique_authors_open st api pad _ hv hf]
      simp only [request_reqs]
      exact iff_of_true (by simp) ((key _).mp hf)
  · by_cases h : versionLt ⟨v3, .none⟩ ⟨(1, 0, 0), .none⟩ = true
    · rw [(get_text_gate st api pad _ hv h).1]
      simp only [ne_eq, not_true_eq_false, false_iff]
      intro hge
      rw [(key _).mpr hge] at h
      exact Bool.false_ne_true h
    · have hf : versionLt ⟨v3, .none⟩ ⟨(1, 0, 0), .none⟩ = false := by
        simpa using h
      rw [get_text_open st api pad _ hv hf]
      simp only [request_reqs]
      exact iff_of_true (by simp) ((key _).mp hf)
  · by_cases h : versionLt ⟨v3, .none⟩ ⟨(1, 1, 0), .none⟩ = true
    · rw [(author_name_gate st api aid _ hv h).1]
      simp only [ne_eq, not_true_eq_false, false_iff]
      intro hge
      rw [(key _).mpr hge] at h
      exact Bool.false_ne_true h
    · have hf : versionLt ⟨v3, .none⟩ ⟨(1, 1, 0), .none⟩ = false := by
        simpa using h
      rw [author_name_open st api aid _ hv hf]
      simp only [request_reqs]
      exact iff_of_true (by simp) ((key _).mp hf)
  · by_cases h : versionLt ⟨v3, .none⟩ ⟨(1, 2, 7), .none⟩ = true
    · rw [(uniqueContributions_gate st api parse pad _ hv h).1]
      simp only [ne_eq, not_true_eq_false, false_iff]
      intro hge
      rw [(key _).mpr hge] at h
      exact Bool.false_ne_true h
    · have hf : versionLt ⟨v3, .none⟩ ⟨(1, 2, 7), .none⟩ = false := by
        simpa using h
      rw [uniqueContributions_open st api parse pad _ hv hf]
      simp only [request_reqs]
      exact iff_of_true (by simp) ((key _).mp hf)
  · intro hnge
    have h : versionLt ⟨v3, .none⟩ ⟨(1, 0, 0), .none⟩ = true := by
      by_contra hc
      exact hnge ((key _).mp (by simpa using hc))
    exact ⟨(unique_authors_gate st api pad _ hv h).2, (get_text_gate st api pad _ hv h).2⟩
  · intro hnge
    have h : versionLt ⟨v3, .none⟩ ⟨(1, 1, 0), .none⟩ = true := by
      by_contra hc
      exact hnge ((key _).mp (by simpa using hc))
    exact (author_name_gate st api aid _ hv h).2
  · intro hnge
    have h : versionLt ⟨v3, .none⟩ ⟨(1, 2, 7), .none⟩ = true := by
      by_contra hc
      exact hnge ((key _).mp (by simpa using hc))
    exact (uniqueContributions_gate st api parse pad _ hv h).2

/-- C1 witness: the default configuration `1.2.12` passes every gate, at a
concrete client, server and pad. -/
theorem c1_version_gate_witness :
    ((unique_authors stOk apiDiff (.str "p")).reqs ≠ [] ↔ verGe (1, 2, 12) (1, 0, 0))
    ∧ ((get_text stOk apiDiff (.str "p")).reqs ≠ [] ↔ verGe (1, 2, 12) (1, 0, 0))
    ∧ ((author_name stOk apiDiff (.str "a.1")).reqs ≠ [] ↔ verGe (1, 2, 12) (1, 1, 0))
    ∧ ((uniqueContributions stOk apiDiff parseOneSpan (.str "p")).reqs ≠ [] ↔
        verGe (1, 2, 12) (1, 2, 7))
    ∧ (¬ verGe (1, 2, 12) (1, 0, 0) →
        failedOut (unique_authors stOk apiDiff (.str "p")).out
        ∧ failedOut (get_text stOk apiDiff (.str "p")).out)
    ∧ (¬ verGe (1, 2, 12) (1, 1, 0) → failedOut (author_name stOk apiDiff (.str "a.1")).out)
    ∧ (¬ verGe (1, 2, 12) (1, 2, 7) →
        failedOut (uniqueContributions stOk apiDiff parseOneSpan (.str "p")).out) :=
  c1_version_gate stOk apiDiff parseOneSpan (.str "p") (.str "a.1") (1, 2, 12) (by decide)

theorem request_eval (st : EtherState) (api : Api) (method : String)
    (params : List (String × PyVal)) (body : PyVal)
    (h : api method (params ++ [("apikey", PyVal.str st.apikey)]) = ⟨200, body⟩) :
    request st api method params =
      ⟨st, [(method, params ++ [("apikey", PyVal.str st.apikey)])], .ok body⟩ := by
  simp only [request]
  rw [h, requestFinish_200 _ _ rfl]

theorem uaFinish_code_err (st : EtherState) (pad body : PyVal) (n : Int)
    (hcode : pyGet body (.str "code") = .ok (.int n)) (hn : n ≠ 0) :
    errPathW (.list []) (uaFinish st pad (.ok body)).2 := by
  unfold uaFinish
  dsimp only
  rw [hcode]
  dsimp only
  rw [if_pos (by simp [pyIsNot0, hn])]
  cases hcc : pyConcat3 "PadId \"" pad "\" does not exist." with
  | error e => exact Or.inr ⟨e, rfl⟩
  | ok m =>
    unfold errlog
    dsimp only
    split
    · exact Or.inl rfl
    · exact Or.inr ⟨_, rfl⟩

theorem uaFinish_code_ok (st : EtherState) (pad body : PyVal)
    (hcode : pyGet body (.str "code") = .ok (.int 0)) :
    (uaFinish st pad (.ok body)).2 = dataPath2 body "data" "authorIDs" := by
  unfold uaFinish
  dsimp only
  rw [hcode]
  dsimp only
  rw [if_neg (by simp [pyIsNot0])]
  unfold dataPath2
  cases h : pyGet body (.str "data") with
  | error e => rfl
  | ok dd => rfl

theorem anFinish_code_err (st : EtherState) (aid body : PyVal) (n : Int)
    (hcode : pyGet body (.str "code") = .ok (.int n)) (hn : n ≠ 0) :
    errPathW (.bool false) (anFinish st aid (.ok body)).2 := by
  unfold anFinish
  dsimp only
  rw [hcode]
  dsimp only
  rw [if_pos (by simp [pyIsNot0, hn])]
  cases hcc : pyConcat3 "AuthorId \"" aid "\" does not exist." with
  | error e => exact Or.inr ⟨e, rfl⟩
  | ok m =>
    unfold errlog
    dsimp only
    split
    · exact Or.inl rfl
    · exact Or.inr ⟨_, rfl⟩

theorem anFinish_code_ok (st : EtherState) (aid body : PyVal)
    (hcode : pyGet body (.str "code") = .ok (.int 0)) :
    (anFinish st aid (.ok body)).2 = pyGet body (.str "data") := by
  unfold anFinish
  dsimp only
  rw [hcode]
  dsimp only
  rw [if_neg (by simp [pyIsNot0])]

theorem ucFinish_code_err (parse : BsParse) (st : EtherState) (pad body : PyVal) (n : Int)
    (hcode : pyGet body (.str "code") = .ok (.int n)) (hn : n ≠ 0) :
    errPathW (.bool false) (ucFinish parse st pad (.ok body)).2 := by
  unfold ucFinish
  dsimp only
  rw [hcode]
  dsimp only
  rw [if_pos (by simp [pyIsNot0, hn])]
  cases hcc : pyConcat3 "PadId \"" pad "\" does not exist." with
  | error e => exact Or.inr ⟨e, rfl⟩
  | ok m =>
    unfold errlog
    dsimp only
    split
    · exact Or.inl rfl
    · exact Or.inr ⟨_, rfl⟩

theorem ucFinish_code_ok (parse : BsParse) (st : EtherState) (pad body : PyVal)
    (hcode : pyGet body (.str "code") = .ok (.int 0)) :
    (ucFinish parse st pad (.ok body)).2 = ucData parse body := by
  unfold ucFinish ucData dataPath2
  dsimp only
  rw [hcode]
  dsimp only
  rw [if_neg (by simp [pyIsNot0])]
  cases h : pyGet body (.str "data") with
  | error e => rfl
  | ok dd =>
    dsimp only
    cases h2 : pyGet dd (.str "html") with
    | error e => rfl
    | ok content => cases content <;> rfl

theorem gtFinish_code_err (st : EtherState) (pad body : PyVal) (n : Int)
    (hcode : pyGet body (.str "code") = .ok (.int n)) (hn : n ≠ 0) :
    errPathW (.bool false) (gtFinish st pad (.ok body)).2 := by
  unfold gtFinish
  dsimp only
  rw [hcode]
  dsimp only
  rw [if_pos (by simp [pyIsNot0, hn])]
  cases hcc : pyConcat3 "PadId \"" pad "\" does not exist." with
  | error e => exact Or.inr ⟨e, rfl⟩
  | ok m =>
    unfold errlog
    dsimp only
    split
    · exact Or.inl rfl
    · exact Or.inr ⟨_, rfl⟩

theorem gtFinish_code_ok (st : EtherState) (pad body : PyVal)
    (hcode : pyGet body (.str "code") = .ok (.int 0)) :
    (gtFinish st pad (.ok body)).2 = dataPath2 body "data" "text" := by
  unfold gtFinish
  dsimp only
  rw [hcode]
  dsimp only
  rw [if_neg (by simp [pyIsNot0])]
  unfold dataPath2
  cases h : pyGet body (.str "data") with
  | error e => rfl
  | ok dd => rfl

/-- C2 counterexample: `all_pads_with_authors` consults no `code` field on
its `listAllPads` and `getLastEdited` calls — with both responses carrying
`code = 1`, their data (`padIDs`, and the `lastEdited` value 42) still
reaches the caller inside the produced entry, so not every operation
converts a nonzero-code response to an error path. -/
theorem c2_unchecked_code_data_leak :
    (apiTsCode1 (.int 42)) "getLastEdited"
        [("padID", .str "gQzTfYpNkWvXs"), ("apikey", .str "secret")] =
      ⟨200, .dict [(.str "code", .int 1),
        (.str "data", .dict [(.str "lastEdited", .int 42)])]⟩
    ∧ pyGet (.dict [(.str "code", .int 1),
        (.str "data", .dict [(.str "lastEdited", .int 42)])]) (.str "code") = .ok (.int 1)
    ∧ (all_pads_with_authors stOk (apiTsCode1 (.int 42))).out =
      .ok (.list [mkEntry (.str "gQzTfYpNkWvXs") (.int 42)
        [(.str "a.1", .str "Alice"), (.str "a.2", .str "Alice")]]) := by
  exact ⟨rfl, by decide, by decide⟩

/-- C2 amended: the operations that check the response code —
`unique_authors`, `author_name`, `get_text`, `__unique_contributions` —
take the error path on a nonzero `code` (sentinel or raised error, never
the data field) and yield the data field only on `code = 0`; but
`all_pads_with_authors` consumes `data[padIDs]` from `listAllPads` and
`data[lastEdited]` from `getLastEdited` with no code check, so those
responses data reaches its caller whatever their code (shown for every
`lastEdited` payload `ts` against a code-1 server). -/
theorem c2_code_check_scope (st : EtherState) (api : Api) (parse : BsParse)
    (pad aid body : PyVal) (n : Int) (sv : SVersion)
    (hv : parseStrict st.version = .some sv)
    (h1 : versionLt sv ⟨(1, 0, 0), .none⟩ = false)
    (h2 : versionLt sv ⟨(1, 1, 0), .none⟩ = false)
    (h3 : versionLt sv ⟨(1, 2, 7), .none⟩ = false)
    (hcode : pyGet body (.str "code") = .ok (.int n))
    (ha : api "listAuthorsOfPad" [("padID", pad), ("apikey", PyVal.str st.apikey)] = ⟨200, body⟩)
    (hb : api "getAuthorName" [("authorID", aid), ("apikey", PyVal.str st.apikey)] = ⟨200, body⟩)
    (hc : api "createDiffHTML" [("padID", pad), ("startRev", .int 0),
        ("apikey", PyVal.str st.apikey)] = ⟨200, body⟩)
    (hd : api "getText" [("padID", pad), ("apikey", PyVal.str st.apikey)] = ⟨200, body⟩) :
    (n ≠ 0 →
      errPathW (.list []) (unique_authors st api pad).out
      ∧ errPathW (.bool false) (author_name st api aid).out
      ∧ errPathW (.bool false) (get_text st api pad).out
      ∧ errPathW (.bool false) (uniqueContributions st api parse pad).out)
    ∧ (n = 0 →
      (unique_authors st api pad).out = dataPath2 body "data" "authorIDs"
      ∧ (author_name st api aid).out = pyGet body (.str "data")
      ∧ (get_text st api pad).out = dataPath2 body "data" "text"
      ∧ (uniqueContributions st api parse pad).out = ucData parse body)
    ∧ (∀ ts : PyVal,
      (all_pads_with_authors stOk (apiTsCode1 ts)).out =
        .ok (.list [mkEntry (.str "gQzTfYpNkWvXs") ts
          [(.str "a.1", .str "Alice"), (.str "a.2", .str "Alice")]])) := by
  have eua : (unique_authors st api pad).out = (uaFinish st pad (.ok body)).2 := by
    rw [unique_authors_open st api pad sv hv h1]
    dsimp only
    rw [request_eval st api _ _ body ha]
  have ean : (author_name st api aid).out = (anFinish st aid (.ok body)).2 := by
    rw [author_name_open st api aid sv hv h2]
    dsimp only
    rw [request_eval st api _ _ body hb]
  have egt : (get_text st api pad).out = (gtFinish st pad (.ok body)).2 := by
    rw [get_text_open st api pad sv hv h1]
    dsimp only
    rw [request_eval st api _ _ body hd]
  have euc : (uniqueContributions st api parse pad).out =
      (ucFinish parse st pad (.ok body)).2 := by
    rw [uniqueContributions_open st api parse pad sv hv h3]
    dsimp only
    rw [request_eval st api _ _ body hc]
  refine ⟨?_, ?_, ?_⟩
  · intro hn
    rw [eua, ean, egt, euc]
    exact ⟨uaFinish_code_err st pad body n hcode hn,
      anFinish_code_err st aid body n hcode hn,
      gtFinish_code_err st pad body n hcode hn,
      ucFinish_code_err parse st pad body n hcode hn⟩
  · intro hn
    subst hn
    rw [eua, ean, egt, euc]
    exact ⟨uaFinish_code_ok st pad body hcode,
      anFinish_code_ok st aid body hcode,
      gtFinish_code_ok st pad body hcode,
      ucFinish_code_ok parse st pad body hcode⟩
  · intro ts
    rfl

/-- C2 amended witness: at the concrete error-reporting server
(`code = 1`) each checking operation takes the error path, and the code-1
`getLastEdited` payload flows into the entry `all_pads_with_authors`
returns. -/
theorem c2_code_check_scope_witness :
    ((1 : Int) ≠ 0 →
      errPathW (.list []) (unique_authors stOk apiErr (.str "p")).out
      ∧ errPathW (.bool false) (author_name stOk apiErr (.str "a.1")).out
      ∧ errPathW (.bool false) (get_text stOk apiErr (.str "p")).out
      ∧ errPathW (.bool false) (uniqueContributions stOk apiErr parseOneSpan (.str "p")).out)
    ∧ (all_pads_with_authors stOk (apiTsCode1 (.int 7))).out =
      .ok (.list [mkEntry (.str "gQzTfYpNkWvXs") (.int 7)
        [(.str "a.1", .str "Alice"), (.str "a.2", .str "Alice")]]) := by
  have h := c2_code_check_scope stOk apiErr parseOneSpan (.str "p") (.str "a.1")
    (.dict [(.str "code", .int 1), (.str "message", .str "padID does not exist")])
    1 ⟨(1, 2, 12), .none⟩ (by decide) (by decide) (by decide) (by decide)
    (by decide) rfl rfl rfl rfl
  exact ⟨h.1, h.2.2 (.int 7)⟩

theorem occursIn_cons_false {pat : List Char} {c : Char} {cs : List Char}
    (h : occursIn pat (c :: cs) = false) :
    pat.isPrefixOf (c :: cs) = false ∧ occursIn pat cs = false := by
  rw [occursIn] at h
  exact Bool.or_eq_false_iff.mp h

theorem replaceGo_no_occurs (pat rep : List Char) :
    ∀ (n : Nat) (l : List Char), occursIn pat l = false → replaceGo pat rep n l = l := by
  intro n
  induction n with
  | zero => intro l h; cases l <;> rfl
  | succ n ih =>
    intro l h
    cases l with
    | nil => rfl
    | cons c cs =>
      obtain ⟨h1, h2⟩ := occursIn_cons_false h
      rw [replaceGo, if_neg (fun hcond => by rw [h1] at hcond; exact Bool.false_ne_true hcond.2)]
      rw [ih cs h2]

theorem pyReplace_no_occurs (s pat rep : String)
    (h : occursIn pat.toList s.toList = false) : pyReplace s pat rep = s := by
  unfold pyReplace
  rw [replaceGo_no_occurs _ _ _ _ h]
  rfl

theorem relabelGo_no_occurs : ∀ (authors : List String) (s : String) (i : Nat),
    (∀ a ∈ authors, occursIn ("authora_" ++ pyDropTwo a).toList s.toList = false) →
    relabelGo s authors i = s := by
  intro authors
  induction authors with
  | nil => intro s i _; rfl
  | cons a rest ih =>
    intro s i h
    rw [relabelGo, pyReplace_no_occurs _ _ _ (h a (by simp))]
    exact ih s (i + 1) (fun b hb => h b (by simp [hb]))

/-- C3 counterexample: with authors `["a.1", "a.12"]` the replacement for
`a.1` rewrites the longer class token `authora_12` of `a.12` into
`author12`, so the span ends up labelled `author12` instead of the
exact-token result `author2`. -/
theorem c3_substring_collision :
    (get_html stOk apiDiff parseOneSpan (.str "p") ["a.1", "a.12"]).out =
      .ok (.str "<span class=\"author12\">x</span>")
    ∧ (get_html stOk apiDiff parseOneSpan (.str "p") ["a.1", "a.12"]).out ≠
      .ok (.str "<span class=\"author2\">x</span>") := by
  exact ⟨by decide, by decide⟩

/-- C3 amended: `get_html` relabels by sequential plain substring
replacement (the `i`-th listed author's pattern `authora_` + id[2:] is
replaced by `author` + i everywhere in the serialized HTML), not by exact
token match — an earlier author's pattern occurring inside a longer class
token rewrites it; markup containing none of the patterns as a substring is
left unchanged. -/
theorem c3_plain_substring_relabel :
    (∀ (st : EtherState) (api : Api) (parse : BsParse) (pad : PyVal)
        (authors : List String) (v : PyVal),
      (uniqueContributions st api parse pad).out = .ok v →
      (get_html st api parse pad authors).out = .ok (.str (relabelGo (pyStr v) authors 1)))
    ∧ (∀ (s : String) (authors : List String) (i : Nat),
      (∀ a ∈ authors, occursIn ("authora_" ++ pyDropTwo a).toList s.toList = false) →
      relabelGo s authors i = s) := by
  constructor
  · intro st api parse pad authors v huc
    unfold get_html
    dsimp only
    rw [huc]
  · exact fun s authors i h => relabelGo_no_occurs authors s i h

/-- C3 amended witness: at a concrete client the relabelled output is the
replacement-loop image of the serialized soup, and markup free of every
author pattern is returned unchanged. -/
theorem c3_plain_substring_relabel_witness :
    (get_html stOk apiDiff parseOneSpan (.str "p") ["a.9"]).out =
      .ok (.str (relabelGo (pyStr (.soup [Html.tag "span" [("class", "authora_12")] [.text "x"]]))
        ["a.9"] 1))
    ∧ relabelGo "<p>hi</p>" ["a.9"] 1 = "<p>hi</p>" :=
  ⟨c3_plain_substring_relabel.1 stOk apiDiff parseOneSpan (.str "p") ["a.9"]
      (.soup [Html.tag "span" [("class", "authora_12")] [.text "x"]]) (by decide),
    c3_plain_substring_relabel.2 "<p>hi</p>" ["a.9"] 1 (by decide)⟩

/-- C7: the claimed escaped-quote normalization is a no-op — the first
`re.sub` replaces `"` by `"`, so a backslash-escaped quote survives
preprocessing — while carriage returns, newlines, tabs are removed and
`<style>` elements are blanked out. -/
theorem c7_quote_unescape_noop :
    preprocessContent "a\\\"b" = "a\\\"b"
    ∧ "a\\\"b" ≠ "a\"b"
    ∧ preprocessContent "x\n\ty\rz" = "xyz"
    ∧ removeStylesL [Html.tag "style" [] [Html.text "css"], Html.text "keep"] =
        [Html.text "", Html.text "keep"] := by
  exact ⟨by decide, by decide, by decide, by decide⟩

/-- C8 counterexample: in collect mode (`ignore = True`), a version-gate
error inside `__unique_contributions` makes `get_edits` call `find_all` on
the `False` sentinel, raising `AttributeError` instead of returning a
benign sentinel. -/
theorem c8_collect_mode_raises :
    stLow.ignore = true
    ∧ (get_edits stLow apiDiff parseOneSpan (.str "p") "a.1").out =
        .error (.attributeError "\x27bool\x27 object has no attribute \x27find_all\x27") := by
  exact ⟨rfl, by decide⟩

/-- C8 amended: every error routed through `__error` appends
`(timestamp, line, message, kind)` to the log, raises `ValueError` in raise
mode and returns control in collect mode (so e.g. `author_name` returns its
`False` sentinel); but an error consumed from a sentinel bypasses this —
`get_edits` in collect mode aborts with an unlogged `AttributeError`. -/
theorem c8_error_logging :
    (∀ (st : EtherState) (line : Nat) (msg : String) (ety : Option String),
      (errlog st line msg ety).1.log = st.log ++ [(st.now, line, msg, ety)]
      ∧ (errlog st line msg ety).1.ignore = st.ignore
      ∧ (errlog st line msg ety).2 =
          (if st.ignore then .ok () else .error (.valueError msg)))
    ∧ (author_name stLow apiDiff (.str "a.1")).out = .ok (.bool false)
    ∧ (get_edits stLow apiDiff parseOneSpan (.str "p") "a.1").out =
        .error (.attributeError "\x27bool\x27 object has no attribute \x27find_all\x27") := by
  refine ⟨?_, by decide, by decide⟩
  intro st line msg ety
  unfold errlog
  dsimp only
  split
  · exact ⟨rfl, rfl, rfl⟩
  · exact ⟨rfl, rfl, rfl⟩

/-- C9: on a non-200 HTTP status, `_request`'s error branch concatenates a
`str` with the integer status code and raises `TypeError` before `__error`
runs — no log entry is appended and no sentinel returned, in either error
mode. -/
theorem c9_non200_typeerror :
    (request stOk api500 "getText" []).out =
      .error (.typeError "can only concatenate str (not \"int\") to str")
    ∧ (request stOk api500 "getText" []).st.log = stOk.log
    ∧ (request { stOk with ignore := false } api500 "getText" []).out =
      .error (.typeError "can only concatenate str (not \"int\") to str")
    ∧ (request { stOk with ignore := false } api500 "getText" []).st.log = stOk.log := by
  exact ⟨by decide, by decide, by decide, by decide⟩

theorem replaceGo_dot : ∀ (n : Nat) (l : List Char), l.length ≤ n →
    replaceGo ['.'] ['_'] n l = l.map dotU := by
  intro n
  induction n with
  | zero =>
    intro l h
    have : l = [] := List.eq_nil_of_length_eq_zero (Nat.le_zero.mp h)
    subst this
    rfl
  | succ n ih =>
    intro l h
    cases l with
    | nil => rfl
    | cons c cs =>
      rw [replaceGo]
      by_cases hc : c = '.'
      · rw [if_pos ⟨by simp, by simp [List.isPrefixOf, hc]⟩]
        simp only [List.length_cons] at h
        simp [List.map_cons, dotU, hc, ih cs (by omega)]
      · rw [if_neg (fun hcond => by
          simp [List.isPrefixOf] at hcond
          exact hc hcond.symm)]
        simp only [List.length_cons] at h
        simp [List.map_cons, dotU, hc, ih cs (by omega)]

theorem pyReplace_dot (a : String) : pyReplace a "." "_" = specNormalize a := by
  unfold pyReplace specNormalize
  rw [show ".".toList = ['.'] from rfl, show "_".toList = ['_'] from rfl]
  rw [replaceGo_dot _ _ le_rfl]

theorem splitWSGo_nil (n : Nat) : splitWSGo n [] = [] := by cases n <;> rfl

theorem splitWSGo_single (n : Nat) (l : List Char) (hn : l.length ≤ n) (hne : l ≠ [])
    (hns : ∀ c ∈ l, c ≠ ' ') : splitWSGo n l = [l] := by
  cases n with
  | zero =>
    exact absurd (List.eq_nil_of_length_eq_zero (Nat.le_zero.mp hn)) hne
  | succ n =>
    cases l with
    | nil => exact absurd rfl hne
    | cons c cs =>
      rw [splitWSGo, if_neg (hns c (by simp))]
      have htake : (c :: cs).takeWhile (fun d => decide (d ≠ ' ')) = c :: cs := by
        rw [List.takeWhile_eq_self_iff]
        intro x hx
        simp [hns x hx]
      have hdrop : (c :: cs).dropWhile (fun d => decide (d ≠ ' ')) = [] := by
        rw [List.dropWhile_eq_nil_iff]
        intro x hx
        simp [hns x hx]
      rw [htake, hdrop, splitWSGo_nil]

theorem specGenClass_toList (a : String) :
    (specGenClass a).toList = "author".toList ++ a.toList.map dotU := by
  unfold specGenClass specNormalize
  rfl

theorem specGenClass_no_space (a : String) (hsp : ' ' ∉ a.toList) :
    ∀ c ∈ (specGenClass a).toList, c ≠ ' ' := by
  intro c hc
  rw [specGenClass_toList] at hc
  rcases List.mem_append.mp hc with h | h
  · fin_cases h <;> decide
  · obtain ⟨c0, hc0, rfl⟩ := List.mem_map.mp h
    unfold dotU
    split
    · decide
    · exact fun hx => hsp (hx ▸ hc0)

theorem specGenClass_ne_nil (a : String) : (specGenClass a).toList ≠ [] := by
  rw [specGenClass_toList]
  simp

theorem classTokens_single_attr (e : Html) (cls : String)
    (hattr : classAttr e = some cls) (hne : cls.toList ≠ [])
    (hns : ∀ c ∈ cls.toList, c ≠ ' ') :
    classTokens e = [cls] := by
  unfold classTokens
  rw [hattr]
  dsimp only
  rw [splitWSGo_single cls.toList.length cls.toList le_rfl hne hns]
  rfl

theorem matchesSpanClass_eq_tagged (a : String) (hsp : ' ' ∉ a.toList) (e : Html) :
    matchesSpanClass (specGenClass a) e = spanTaggedGen a e := by
  cases e with
  | text s => rfl
  | tag nm attrs cs =>
    unfold matchesSpanClass spanTaggedGen isSpanTag
    cases hattr : classAttr (.tag nm attrs cs) with
    | none => simp [hattr]
    | some v =>
      by_cases hv : v = specGenClass a
      · have htok : classTokens (.tag nm attrs cs) = [specGenClass a] :=
          classTokens_single_attr _ _ (hv ▸ hattr) (specGenClass_ne_nil a)
            (specGenClass_no_space a hsp)
        simp [htok, hv]
      · have hbe : (some v == some (specGenClass a)) = false := by
          rw [beq_eq_false_iff_ne]
          exact fun h => hv (Option.some.inj h)
        rw [hbe]
        simp

/-- C5: with the author identifier's dots translated to underscores,
`get_edits` retrieves exactly the spans whose class token was generated
from that identifier by the same dot-to-underscore rule — no more and no
fewer (stated for identifiers without spaces, the only class-safe form). -/
theorem c5_roundtrip (st : EtherState) (api : Api) (parse : BsParse)
    (pad : PyVal) (a : String) (doc : List Html)
    (hdot : '.' ∈ a.toList) (hsp : ' ' ∉ a.toList)
    (huc : (uniqueContributions st api parse pad).out = .ok (.soup doc)) :
    (get_edits st api parse pad a).out =
      .ok (.list (((descL doc).filter (spanTaggedGen a)).map
        (fun e => PyVal.str (strOfBsString (bsString e))))) := by
  unfold get_edits
  dsimp only
  rw [huc]
  dsimp only
  have hcls : ("author" ++ pyReplace a "." "_") = specGenClass a := by
    rw [pyReplace_dot]
    rfl
  rw [hcls]
  unfold findAll
  rw [List.filter_congr (fun e _ => matchesSpanClass_eq_tagged a hsp e)]

/-- C5 witness: at a concrete diff document with one span generated from
`a.123` and one unrelated span, `get_edits` retrieves exactly the former. -/
theorem c5_roundtrip_witness :
    (get_edits stOk apiDiff parseTwoSpans (.str "p") "a.123").out =
      .ok (.list (((descL [Html.tag "span" [("class", "authora_123")] [.text "hi"],
          Html.tag "span" [("class", "other")] [.text "no"]]).filter
            (spanTaggedGen "a.123")).map
        (fun e => PyVal.str (strOfBsString (bsString e))))) :=
  c5_roundtrip stOk apiDiff parseTwoSpans (.str "p") "a.123"
    [Html.tag "span" [("class", "authora_123")] [.text "hi"],
     Html.tag "span" [("class", "other")] [.text "no"]]
    (by decide) (by decide) (by decide)

/-- C6 counterexample: a matched span holding `hello` and a nested span
`bye` has `edit.string = None`, so `get_edits` returns the placeholder
string `"None"` instead of the contained text runs. -/
theorem c6_nested_markup_none :
    (get_edits stOk apiDiff parseNested (.str "p") "a.123").out =
      .ok (.list [.str "None"])
    ∧ (get_edits stOk apiDiff parseNested (.str "p") "a.123").out ≠
      .ok (.list [.str "hello", .str "bye"]) := by
  exact ⟨by decide, by decide⟩

/-- C6 amended: per matched span, `get_edits` contributes the single string
`str(edit.string)`: the unique text run when the span's contents are a
single text node (or a single-child chain ending in one), and the
placeholder `"None"` when the span has zero or several children — nested
markup with several children yields `"None"`, not the contained text
runs. -/
theorem c6_edit_strings :
    (∀ (st : EtherState) (api : Api) (parse : BsParse) (pad : PyVal)
        (a : String) (doc : List Html),
      (uniqueContributions st api parse pad).out = .ok (.soup doc) →
      (get_edits st api parse pad a).out =
        .ok (.list ((findAll doc (matchesSpanClass ("author" ++ pyReplace a "." "_"))).map
          (fun e => PyVal.str (strOfBsString (bsString e))))))
    ∧ (∀ (nm : String) (attrs : List (String × String)) (s : String),
        bsString (.tag nm attrs [.text s]) = some s)
    ∧ (∀ (nm : String) (attrs : List (String × String)) (c1 c2 : Html) (cs : List Html),
        bsString (.tag nm attrs (c1 :: c2 :: cs)) = none)
    ∧ (∀ (nm : String) (attrs : List (String × String)), bsString (.tag nm attrs []) = none)
    ∧ strOfBsString .none = "None" := by
  refine ⟨?_, fun _ _ _ => rfl, fun _ _ _ _ _ => rfl, fun _ _ => rfl, rfl⟩
  intro st api parse pad a doc huc
  unfold get_edits
  dsimp only
  rw [huc]

/-- C6 amended witness: the nested-markup span contributes `"None"` at a
concrete client and document. -/
theorem c6_edit_strings_witness :
    (get_edits stOk apiDiff parseNested (.str "p") "a.123").out =
      .ok (.list ((findAll
          [Html.tag "span" [("class", "authora_123")] [.text "hello",
            .tag "span" [] [.text "bye"]]]
          (matchesSpanClass ("author" ++ pyReplace "a.123" "." "_"))).map
        (fun e => PyVal.str (strOfBsString (bsString e))))) :=
  c6_edit_strings.1 stOk apiDiff parseNested (.str "p") "a.123"
    [Html.tag "span" [("class", "authora_123")] [.text "hello",
      .tag "span" [] [.text "bye"]]] (by decide)

/-- C4 (spec-modelled): on the diff HTML
`<span class="author_a_123">hello<span>bye</span></span>`,
`classifyContributions` with authors `["a.123"]` yields
`deleted["a.123"] = ["bye"]` and `inserted["a.123"] = []`; in general a
tagged span containing a nested span is a deletion taking the nested
span's text, and one without is an insertion taking its text directly. -/
theorem c4_classify_example :
    (classifyContributions c4doc ["a.123"]).2 = [("a.123", ["bye"])]
    ∧ (classifyContributions c4doc ["a.123"]).1 = [("a.123", [])]
    ∧ (∀ (e s : Html), (descL (childrenOf e)).find? isSpanTag = some s →
        classify1 e = (true, innerText1 s))
    ∧ (∀ e : Html, (descL (childrenOf e)).find? isSpanTag = none →
        classify1 e = (false, innerText1 e)) := by
  refine ⟨by decide, by decide, ?_, ?_⟩
  · intro e s h
    unfold classify1
    rw [h]
  · intro e h
    unfold classify1
    rw [h]

/-- C4 witness: the nested-span rule applied at the example's outer span. -/
theorem c4_classify_example_witness :
    classify1 (Html.tag "span" [("class", "author_a_123")]
      [.text "hello", .tag "span" [] [.text "bye"]]) = (true, "bye") := by
  have h := c4_classify_example.2.2.1
    (Html.tag "span" [("class", "author_a_123")] [.text "hello", .tag "span" [] [.text "bye"]])
    (Html.tag "span" [] [.text "bye"]) (by decide)
  exact h

theorem padsLoop_good (api : Api) : ∀ (plist : List PyVal) (st : EtherState)
    (reqs : List (String × List (String × PyVal))) (acc : List PyVal)
    (st2 : EtherState) (reqs2 : List (String × List (String × PyVal)))
    (entries : List PyVal),
    (∀ e ∈ acc, goodEntry api e) →
    padsLoop api st reqs acc plist = (st2, reqs2, .ok entries) →
    ∀ e ∈ entries, goodEntry api e := by
  intro plist
  induction plist with
  | nil =>
    intro st reqs acc st2 reqs2 entries hacc h e he
    rw [padsLoop] at h
    simp only [Prod.mk.injEq, Except.ok.injEq] at h
    obtain ⟨-, -, rfl⟩ := h
    exact hacc e he
  | cons pad rest ih =>
    intro st reqs acc st2 reqs2 entries hacc h e he
    rw [padsLoop] at h
    cases hlen : pyLen pad with
    | error e1 => rw [hlen] at h; simp at h
    | ok n =>
      rw [hlen] at h
      dsimp only at h
      by_cases h13 : n = 13
      · rw [if_pos h13] at h
        cases hra : (unique_authors st api pad).out with
        | error e1 => rw [hra] at h; simp at h
        | ok authors =>
          rw [hra] at h
          dsimp only at h
          cases hrt : (request (unique_authors st api pad).st api "getLastEdited"
              [("padID", pad)]).out with
          | error e1 => rw [hrt] at h; simp at h
          | ok body =>
            rw [hrt] at h
            dsimp only at h
            cases hdd : pyGet body (.str "data") with
            | error e1 => rw [hdd] at h; simp at h
            | ok dd =>
              rw [hdd] at h
              dsimp only at h
              cases hts : pyGet dd (.str "lastEdited") with
              | error e1 => rw [hts] at h; simp at h
              | ok ts =>
                rw [hts] at h
                dsimp only at h
                cases hna : pyLen authors with
                | error e1 => rw [hna] at h; simp at h
                | ok na =>
                  rw [hna] at h
                  dsimp only at h
                  by_cases hgt : 1 < na
                  · rw [if_pos hgt] at h
                    cases hal : pyIter authors with
                    | error e1 => rw [hal] at h; simp at h
                    | ok alist =>
                      rw [hal] at h
                      dsimp only at h
                      cases hm : (authorsLoop api
                          (request (unique_authors st api pad).st api "getLastEdited"
                            [("padID", pad)]).st
                          (reqs ++ (unique_authors st api pad).reqs ++
                            (request (unique_authors st api pad).st api "getLastEdited"
                              [("padID", pad)]).reqs) [] alist).2.2 with
                      | error e1 => rw [hm] at h; simp at h
                      | ok m =>
                        rw [hm] at h
                        dsimp only at h
                        refine ih _ _ _ _ _ _ ?_ h e he
                        intro x hx
                        rcases List.mem_append.mp hx with hx | hx
                        · exact hacc x hx
                        · rw [List.mem_singleton.mp hx]
                          refine ⟨pad, ts, m, authors, alist, na, st,
                            (reqs ++ (unique_authors st api pad).reqs ++
                              (request (unique_authors st api pad).st api "getLastEdited"
                                [("padID", pad)]).reqs),
                            (authorsLoop api
                              (request (unique_authors st api pad).st api "getLastEdited"
                                [("padID", pad)]).st
                              (reqs ++ (unique_authors st api pad).reqs ++
                                (request (unique_authors st api pad).st api "getLastEdited"
                                  [("padID", pad)]).reqs) [] alist).1,
                            (authorsLoop api
                              (request (unique_authors st api pad).st api "getLastEdited"
                                [("padID", pad)]).st
                              (reqs ++ (unique_authors st api pad).reqs ++
                                (request (unique_authors st api pad).st api "getLastEdited"
                                  [("padID", pad)]).reqs) [] alist).2.1,
                            rfl, h13 ▸ hlen, hra, hna, hgt, hal, ?_⟩
                          rw [← hm]
                  · rw [if_neg hgt] at h
                    exact ih _ _ _ _ _ _ hacc h e he
      · rw [if_neg h13] at h
        exact ih _ _ _ _ _ _ hacc h e he

/-- C10: every entry of `all_pads_with_authors` comes from a pad whose
identifier has length exactly 13 and whose author list had at least 2
elements; pads failing either filter are excluded even when the API lists
them. -/
theorem c10_pad_filter (st : EtherState) (api : Api) (entries : List PyVal)
    (h : (all_pads_with_authors st api).out = .ok (.list entries)) :
    ∀ e ∈ entries, goodEntry api e := by
  intro e he
  unfold all_pads_with_authors at h
  dsimp only at h
  cases hrq : (request st api "listAllPads" []).out with
  | error e1 => rw [hrq] at h; simp at h
  | ok body =>
    rw [hrq] at h
    dsimp only at h
    cases hdd : pyGet body (.str "data") with
    | error e1 => rw [hdd] at h; simp at h
    | ok dd =>
      rw [hdd] at h
      dsimp only at h
      cases hp : pyGet dd (.str "padIDs") with
      | error e1 => rw [hp] at h; simp at h
      | ok pads =>
        rw [hp] at h
        dsimp only at h
        cases hit : pyIter pads with
        | error e1 => rw [hit] at h; simp at h
        | ok plist =>
          rw [hit] at h
          dsimp only at h
          cases hl : (padsLoop api (request st api "listAllPads" []).st
              (request st api "listAllPads" []).reqs [] plist).2.2 with
          | error e1 => rw [hl] at h; simp [Except.map] at h
          | ok l =>
            rw [hl] at h
            simp only [Except.map, Except.ok.injEq, PyVal.list.injEq] at h
            subst h
            exact padsLoop_good api plist (request st api "listAllPads" []).st
              (request st api "listAllPads" []).reqs [] _ _ l (by simp)
              (by rw [← hl]) e he

/-- C10 witness: at a concrete server listing a length-1 pad and a
length-13 pad with two authors, the single produced entry carries the
certified filters. -/
theorem c10_pad_filter_witness :
    goodEntry apiPads (mkEntry (.str "gQzTfYpNkWvXs") (.int 1553598000)
      [(.str "a.1", .str "Alice"), (.str "a.2", .str "Alice")]) :=
  c10_pad_filter stOk apiPads
    [mkEntry (.str "gQzTfYpNkWvXs") (.int 1553598000)
      [(.str "a.1", .str "Alice"), (.str "a.2", .str "Alice")]]
    (by decide) _ (by simp)
